import Mathlib

/-!
Verification of the BoP (Bag of Properties) typing core from
src/codeevaluation/typing/BagOfProperties.py.

The embedding models Python classes explicitly:
a column-descriptor class is a record of its identity and the type-level
attributes the validation code reads with getattr; a shaped type is a record
of its identity and its stored type-parameter tuple; the process-wide
registry of BoPMeta is threaded as explicit state.  Machine-level details
(Polars internals, hash order of Python sets) are modelled by their observable
behaviour: frozenset keys become Finsets, set iteration order becomes
List.dedup order.
-/

/-- Primitive value kinds usable as a column datatype (str, int, bool). -/
inductive PKind where
  | pstr
  | pint
  | pbool
deriving DecidableEq, Repr

/-- A scalar cell value. -/
inductive PVal where
  | vstr (s : String)
  | vint (n : Int)
  | vbool (b : Bool)
deriving DecidableEq, Repr

/-- A Python class offered as a column descriptor to BoP.__getitem__.
cid is the identity of the class object (distinct classes have distinct
cid even when attributes coincide); clsName is the __name__ used in error
messages; isBoPColumnSub models issubclass(typ, BoPColumn); nameAttr is
the type-level attribute name when it exists and is a str (None models a
missing attribute or a non-string value, e.g. an abstract property object);
datatypeAttr is the type-level attribute datatype when it exists and is a
class. -/
structure ColumnClass where
  cid : Nat
  clsName : String
  isBoPColumnSub : Bool
  nameAttr : Option String
  datatypeAttr : Option PKind
deriving DecidableEq, Repr

/-- The name attribute of a validated descriptor (col.name in the source;
the default is never reached on descriptors that passed validation). -/
def colName (c : ColumnClass) : String := c.nameAttr.getD ("")

/-- The datatype attribute of a validated descriptor (col.datatype in the
source; the default is never reached on validated descriptors). -/
def colKind (c : ColumnClass) : PKind := c.datatypeAttr.getD PKind.pstr

/-- An input record: a Python dict from field name to value (keys unique). -/
abbrev PyRec := List (String × PVal)

/-- row.get(col_name, None): the value stored under a key, or none. -/
def recGet (r : PyRec) (k : String) : Option PVal :=
  (r.find? (fun p => decide (p.1 = k))).map (fun p => p.2)

/-- A Polars DataFrame: an ordered schema of (column name, dtype) pairs and
rows of cells aligned with the schema; a none cell is the missing marker. -/
structure DataFrame where
  schema : List (String × PKind)
  rows : List (List (Option PVal))
deriving DecidableEq, Repr

/-- Python dict insertion: a fresh key is appended, an existing key keeps
its position and gets the new value. -/
def dictInsert (d : List (String × PKind)) (k : String) (v : PKind) :
    List (String × PKind) :=
  if d.any (fun p => decide (p.1 = k)) then
    d.map (fun p => if p.1 = k then (k, v) else p)
  else d ++ [(k, v)]

/-- The dict comprehension schema = col.name : col.datatype for the
_type_params tuple, in tuple order. -/
def buildSchema (typeParams : List ColumnClass) : List (String × PKind) :=
  typeParams.foldl (fun d c => dictInsert d (colName c) (colKind c)) []

/-- BoP.create_dataframe: columns fixed to the schema derived from
_type_params; with no data (None or an empty list) an empty frame; otherwise
one row per record, each cell row.get(col_name, None). -/
def BoP.create_dataframe (typeParams : List ColumnClass)
    (data : Option (List PyRec)) : DataFrame :=
  match data with
  | none => { schema := buildSchema typeParams, rows := [] }
  | some [] => { schema := buildSchema typeParams, rows := [] }
  | some rows =>
    { schema := buildSchema typeParams,
      rows := rows.map (fun r =>
        (buildSchema typeParams).map (fun kv => recGet r kv.1)) }

/-- arg.df.select([col for col in arg.df.columns if col in required_columns]):
keep exactly the columns whose name is in keepNames, in frame order,
preserving row order and cell contents. -/
def DataFrame.selectColumns (df : DataFrame) (keepNames : List String) :
    DataFrame :=
  { schema := df.schema.filter (fun kv => keepNames.contains kv.1),
    rows := df.rows.map (fun row =>
      ((df.schema.zip row).filter
        (fun p => keepNames.contains p.1.1)).map (fun p => p.2)) }

/-- The cell of row j in the column named n (first column of that name),
as observed through the schema; none if the row does not exist or no
column has that name. -/
def DataFrame.cell (df : DataFrame) (j : Nat) (n : String) :
    Option (Option PVal) :=
  match df.rows.get? j with
  | none => none
  | some row =>
    ((df.schema.zip row).find? (fun p => decide (p.1.1 = n))).map (fun p => p.2)

/-- A concrete class produced by BoPMeta.__getitem__: its object identity
and the _type_params tuple stored at creation. -/
structure ShapedType where
  tid : Nat
  typeParams : List ColumnClass
deriving DecidableEq, Repr

/-- A class whose metaclass is BoPMeta: the unparameterized base BoP
(whose _type_params is the empty tuple) or a dynamically created shape. -/
inductive BClass where
  | base
  | shaped (s : ShapedType)
deriving DecidableEq, Repr

/-- The _type_params tuple of a BoP-family class. -/
def BClass.typeParams : BClass → List ColumnClass
  | BClass.base => []
  | BClass.shaped s => s.typeParams

/-- get_typ_params_or_empty_set: the column-set of a BoP-family class,
i.e. set(bopClass._type_params). -/
def get_typ_params_or_empty_set (c : BClass) : Finset ColumnClass :=
  c.typeParams.toFinset

/-- Any Python class that may appear as a type hint: a BoP-family class or
a foreign type (int, bool, a non-class hint, ...). -/
inductive PyCls where
  | bop (c : BClass)
  | foreign (tag : Nat)
deriving DecidableEq, Repr

/-- A BoP container instance: its object identity, its runtime class and
its df. -/
structure BoPInst where
  objId : Nat
  cls : BClass
  df : DataFrame
deriving DecidableEq, Repr

/-- A Python object passed as a positional argument: a BoP-family instance
or anything else. -/
inductive PyObj where
  | bop (inst : BoPInst)
  | other (tag : Nat)
deriving DecidableEq, Repr

/-- BoPMeta.__instancecheck__: false when the object's class does not have
BoPMeta as metaclass; otherwise the subset test
class_types.issubset(instance_types). -/
def BoPMeta.instancecheck (cls : BClass) (obj : PyObj) : Bool :=
  match obj with
  | PyObj.other _ => false
  | PyObj.bop inst =>
    decide (get_typ_params_or_empty_set cls ⊆
      get_typ_params_or_empty_set inst.cls)

/-- BoPMeta.__subclasscheck__: false when the candidate subclass is not a
BoPMeta class; otherwise the subset test
class_types.issubset(subclass_types). -/
def BoPMeta.subclasscheck (cls : BClass) (sub : PyCls) : Bool :=
  match sub with
  | PyCls.foreign _ => false
  | PyCls.bop c =>
    decide (get_typ_params_or_empty_set cls ⊆ get_typ_params_or_empty_set c)

/-- The two TypeError cases of BoPMeta.__getitem__ validation, each carrying
the offending class __name__ interpolated into the message. -/
inductive BoPError where
  | invalidType (clsName : String)
  | invalidImplementation (clsName : String)
deriving DecidableEq, Repr

/-- A descriptor class that passes both validation checks. -/
def colOK (t : ColumnClass) : Bool :=
  t.isBoPColumnSub && (t.nameAttr.isSome && t.datatypeAttr.isSome)

/-- The validation loop of BoPMeta.__getitem__ over the supplied tuple, in
order: first a non-BoPColumn member raises invalid type; then a member
without both a string name and a class datatype raises invalid
implementation. -/
def validateColumns : List ColumnClass → Option BoPError
  | [] => none
  | t :: ts =>
    if !t.isBoPColumnSub then some (BoPError.invalidType t.clsName)
    else if !(t.nameAttr.isSome && t.datatypeAttr.isSome) then
      some (BoPError.invalidImplementation t.clsName)
    else validateColumns ts

/-- The mutable process state: BoPMeta._registry keyed by
(cls, frozenset(typesTuple)), plus counters supplying fresh object
identities for created classes and instances. -/
structure GState where
  registry : List ((Nat × Finset ColumnClass) × ShapedType)
  nextTypeId : Nat
  nextInstId : Nat

/-- BoPMeta.__getitem__: validate every supplied type, then look the
frozenset key up in the registry, returning the cached class when present
and otherwise creating, registering and returning a fresh class whose
_type_params is the supplied tuple. -/
def BoPMeta.getitem (st : GState) (clsId : Nat)
    (typesTuple : List ColumnClass) : Except BoPError (ShapedType × GState) :=
  match validateColumns typesTuple with
  | some e => Except.error e
  | none =>
    match st.registry.find?
        (fun e => decide (e.1 = (clsId, typesTuple.toFinset))) with
    | some e => Except.ok (e.2, st)
    | none =>
      Except.ok ({ tid := st.nextTypeId, typeParams := typesTuple },
        { st with
          registry := st.registry ++
            [((clsId, typesTuple.toFinset),
              { tid := st.nextTypeId, typeParams := typesTuple })],
          nextTypeId := st.nextTypeId + 1 })

/-- The identity of the base BoP class, on which castBoPtype indexes. -/
def bopBaseId : Nat := 0

/-- The casted instance built inside castBoPtype.wrapper: a fresh instance
of the casted class whose df is immediately replaced by the column
projection of the argument's df to the required column names. -/
def narrowedInstance (instId : Nat) (c : ShapedType) (argDf : DataFrame)
    (required : List ColumnClass) : BoPInst :=
  { objId := instId, cls := BClass.shaped c,
    df := argDf.selectColumns (required.dedup.map colName) }

/-- The inner loop of castBoPtype.wrapper for one type hint with
_type_params tuple required: scan the positional arguments in order; a
non-BoP argument is skipped, a BoP argument whose column-set is not a
superset of the required set is left in place and scanning continues, and
the first BoP argument passing the subset test is replaced by the casted
instance, after which the loop breaks. -/
def narrowArgs (st : GState) (required : List ColumnClass) :
    List PyObj → Except BoPError (GState × List PyObj)
  | [] => Except.ok (st, [])
  | arg :: rest =>
    match arg with
    | PyObj.bop inst =>
      if required.toFinset ⊆ (BClass.typeParams inst.cls).toFinset then
        match BoPMeta.getitem st bopBaseId required.dedup with
        | Except.error e => Except.error e
        | Except.ok (c, st1) =>
          Except.ok ({ st1 with nextInstId := st1.nextInstId + 1 },
            PyObj.bop (narrowedInstance st1.nextInstId c inst.df required)
              :: rest)
      else
        match narrowArgs st required rest with
        | Except.error e => Except.error e
        | Except.ok (st1, rest1) => Except.ok (st1, arg :: rest1)
    | PyObj.other t =>
      match narrowArgs st required rest with
      | Except.error e => Except.error e
      | Except.ok (st1, rest1) => Except.ok (st1, PyObj.other t :: rest1)

/-- The outer loop of castBoPtype.wrapper over get_type_hints(func): hints
that are not BoP-family classes are skipped; each BoP-family hint runs one
argument scan on the current argument list. -/
def processHints : GState → List PyCls → List PyObj →
    Except BoPError (GState × List PyObj)
  | st, [], args => Except.ok (st, args)
  | st, PyCls.foreign _ :: hs, args => processHints st hs args
  | st, PyCls.bop c :: hs, args =>
    match narrowArgs st (BClass.typeParams c) args with
    | Except.error e => Except.error e
    | Except.ok (st1, args1) => processHints st1 hs args1

/-- The annotations of a decorated function: parameter hints in declaration
order and the optional return annotation. -/
structure FuncSig where
  paramHints : List PyCls
  returnHint : Option PyCls

/-- get_type_hints(func): the parameter annotations in order followed by
the return annotation when present. -/
def get_type_hints (f : FuncSig) : List PyCls :=
  f.paramHints ++ f.returnHint.toList

/-- castBoPtype: the argument transformation the decorator performs before
invoking the wrapped function (the wrapped function then receives the
resulting argument list). -/
def castBoPtype (f : FuncSig) (st : GState) (args : List PyObj) :
    Except BoPError (GState × List PyObj) :=
  processHints st (get_type_hints f) args

/-- An element of a parsed top-level JSON array: a JSON object (a dict,
hence a record) or any other value (number, string, list, ...), carrying
the Python type name that appears in the AttributeError raised when .get
is looked up on it (the CPython message also quotes the names; the quoting
is elided here). -/
inductive JElem where
  | jdict (r : PyRec)
  | jother (typeName : String)
deriving DecidableEq, Repr

/-- The result of json.load observed through the list check of
BoP.from_json: a top-level array with its elements, or any non-list
top-level value. -/
inductive JsonTop where
  | jlist (elems : List JElem)
  | jnonlist
deriving DecidableEq, Repr

/-- row.get(col_name, None) on a parsed element: a dict answers the lookup,
anything else raises AttributeError. -/
def elemGet (v : JElem) (k : String) : Except String (Option PVal) :=
  match v with
  | JElem.jdict r => Except.ok (recGet r k)
  | JElem.jother tn =>
    Except.error (tn ++ (" object has no attribute get"))

/-- The inner comprehension of create_dataframe over one parsed element:
one .get call per schema column, in schema order, so the first call on a
non-dict raises — and an empty schema performs no call at all, succeeding
on any element. -/
def processJsonRow (v : JElem) :
    List (String × PKind) → Except String (List (Option PVal))
  | [] => Except.ok []
  | kv :: s =>
    match elemGet v kv.1 with
    | Except.error e => Except.error e
    | Except.ok cell =>
      match processJsonRow v s with
      | Except.error e => Except.error e
      | Except.ok cells => Except.ok (cell :: cells)

/-- The outer comprehension of create_dataframe over the parsed elements,
first failing row first. -/
def processJsonRows (schema : List (String × PKind)) :
    List JElem → Except String (List (List (Option PVal)))
  | [] => Except.ok []
  | v :: vs =>
    match processJsonRow v schema with
    | Except.error e => Except.error e
    | Except.ok row =>
      match processJsonRows schema vs with
      | Except.error e => Except.error e
      | Except.ok rows => Except.ok (row :: rows)

/-- BoP.create_dataframe as reached from from_json, on parsed elements
that may not be dicts: no data gives the empty frame without inspecting
anything, otherwise the rows are processed through the comprehension and
an AttributeError escapes as the failure. -/
def create_dataframe_json (typeParams : List ColumnClass)
    (data : List JElem) : Except String DataFrame :=
  match data with
  | [] => Except.ok { schema := buildSchema typeParams, rows := [] }
  | d :: ds =>
    match processJsonRows (buildSchema typeParams) (d :: ds) with
    | Except.error e => Except.error e
    | Except.ok rows =>
      Except.ok { schema := buildSchema typeParams, rows := rows }

/-- BoP.from_json: every exception escaping the try body — the read or
parse failure, the explicit list-check ValueError, or an AttributeError
from the construction — is re-raised as a ValueError prefixed with the
loading context; otherwise the constructed container is returned. -/
def BoP.from_json (typeParams : List ColumnClass)
    (readOutcome : Except String JsonTop) : Except String DataFrame :=
  match readOutcome with
  | Except.error cause => Except.error ("Error loading JSON file: " ++ cause)
  | Except.ok JsonTop.jnonlist =>
    Except.error
      ("Error loading JSON file: JSON file must contain a list of dictionaries.")
  | Except.ok (JsonTop.jlist elems) =>
    match create_dataframe_json typeParams elems with
    | Except.error cause =>
      Except.error ("Error loading JSON file: " ++ cause)
    | Except.ok df => Except.ok df

/-! ### Helper lemmas -/

/-- Searching an appended list falls through to the second part when the
first part has no match. -/
theorem find?_append_of_none {α : Type} (l1 l2 : List α) (p : α → Bool)
    (h : l1.find? p = none) : (l1 ++ l2).find? p = l2.find? p := by
  rw [List.find?_append, h, Option.none_or]

/-- Dedup does not change the Finset a list denotes. -/
theorem toFinset_dedup_eq {α : Type} [DecidableEq α] (l : List α) :
    l.dedup.toFinset = l.toFinset := by
  apply Finset.ext
  intro a
  simp [List.mem_toFinset, List.mem_dedup]

/-- validateColumns accepts a tuple exactly when every member passes both
attribute checks. -/
theorem validateColumns_eq_none_iff (l : List ColumnClass) :
    validateColumns l = none ↔ ∀ t ∈ l, colOK t = true := by
  induction l with
  | nil => simp [validateColumns]
  | cons t ts ih =>
    rw [List.forall_mem_cons, ← ih]
    simp only [validateColumns, colOK]
    cases h1 : t.isBoPColumnSub with
    | false => simp [h1]
    | true =>
      cases h2 : (t.nameAttr.isSome && t.datatypeAttr.isSome) with
      | false => simp [h1, h2]
      | true => simp [h1, h2]

/-- The validation loop skips over a fully valid leading segment. -/
theorem validateColumns_append_of_valid (pre l : List ColumnClass)
    (h : ∀ u ∈ pre, colOK u = true) :
    validateColumns (pre ++ l) = validateColumns l := by
  induction pre with
  | nil => rfl
  | cons u pre ih =>
    have hu : colOK u = true := h u (List.mem_cons_self u pre)
    have h1 : u.isBoPColumnSub = true := by
      cases hs : u.isBoPColumnSub
      · rw [colOK, hs] at hu; simp at hu
      · rfl
    have h2 : (u.nameAttr.isSome && u.datatypeAttr.isSome) = true := by
      rw [colOK, h1] at hu; simpa using hu
    simp only [List.cons_append, validateColumns, h1, h2]
    exact ih (fun v hv => h v (List.mem_cons_of_mem u hv))
    
/-- Registry well-formedness: every cached class records as _type_params a
tuple whose underlying set is its frozenset key. -/
def RegWF (st : GState) : Prop :=
  ∀ e ∈ st.registry, e.2.typeParams.toFinset = e.1.2

/-- A validated tuple always produces a class (cache hit or fresh). -/
theorem getitem_total (st : GState) (b : Nat) (l : List ColumnClass)
    (hv : validateColumns l = none) :
    ∃ c st1, BoPMeta.getitem st b l = Except.ok (c, st1) := by
  unfold BoPMeta.getitem
  rw [hv]
  cases hf : st.registry.find? (fun e => decide (e.1 = (b, l.toFinset))) with
  | none => exact ⟨_, _, rfl⟩
  | some e => exact ⟨_, _, rfl⟩

/-- What a successful BoPMeta.__getitem__ guarantees: well-formedness is
preserved, the returned class's column-set is the requested set, the
instance counter is untouched, and the returned class is cached in the
resulting registry under the requested key. -/
theorem getitem_ok_spec (st : GState) (b : Nat) (l : List ColumnClass)
    (c : ShapedType) (st1 : GState) (hWF : RegWF st)
    (h : BoPMeta.getitem st b l = Except.ok (c, st1)) :
    RegWF st1 ∧ c.typeParams.toFinset = l.toFinset ∧
      st1.nextInstId = st.nextInstId ∧
      st1.registry.find? (fun e => decide (e.1 = (b, l.toFinset)))
        = some ((b, l.toFinset), c) := by
  unfold BoPMeta.getitem at h
  cases hv : validateColumns l with
  | some e => rw [hv] at h; cases h
  | none =>
    rw [hv] at h
    cases hf : st.registry.find? (fun e => decide (e.1 = (b, l.toFinset))) with
    | some e =>
      rw [hf] at h
      have hkey : e.1 = (b, l.toFinset) := by
        have := List.find?_some hf
        simpa using this
      have hmem : e ∈ st.registry := List.mem_of_find?_eq_some hf
      cases h
      refine ⟨hWF, ?_, rfl, ?_⟩
      · rw [hWF e hmem, hkey]
      · rw [hf, ← hkey]
    | none =>
      rw [hf] at h
      cases h
      refine ⟨?_, by simp, rfl, ?_⟩
      · intro e he
        simp only [List.mem_append, List.mem_singleton] at he
        cases he with
        | inl h0 => exact hWF e h0
        | inr h0 => rw [h0]
      · rw [find?_append_of_none _ _ _ hf]
        exact List.find?_cons_of_pos _ (by simp)

/-- Requesting a key that the registry already caches returns exactly the
cached class and leaves the state untouched. -/
theorem getitem_cached (st : GState) (b : Nat) (l : List ColumnClass)
    (c : ShapedType)
    (hv : validateColumns l = none)
    (hf : st.registry.find? (fun e => decide (e.1 = (b, l.toFinset)))
      = some ((b, l.toFinset), c)) :
    BoPMeta.getitem st b l = Except.ok (c, st) := by
  unfold BoPMeta.getitem
  rw [hv, hf]

/-- A successful BoPMeta.__getitem__ implies the tuple validated. -/
theorem getitem_ok_valid (st : GState) (b : Nat) (l : List ColumnClass)
    (c : ShapedType) (st1 : GState)
    (h : BoPMeta.getitem st b l = Except.ok (c, st1)) :
    validateColumns l = none := by
  unfold BoPMeta.getitem at h
  cases hv : validateColumns l with
  | some e => rw [hv] at h; cases h
  | none => rfl

/-- Two consecutive requests for set-equal tuples resolve to the identical
class object and the second request does not change the state. -/
theorem getitem_twice (st : GState) (b : Nat) (l1 l2 : List ColumnClass)
    (t1 t2 : ShapedType) (st1 st2 : GState) (hWF : RegWF st)
    (hset : l1.toFinset = l2.toFinset)
    (h1 : BoPMeta.getitem st b l1 = Except.ok (t1, st1))
    (h2 : BoPMeta.getitem st1 b l2 = Except.ok (t2, st2)) :
    t2 = t1 ∧ st2 = st1 := by
  have hspec := getitem_ok_spec st b l1 t1 st1 hWF h1
  have hv2 : validateColumns l2 = none := getitem_ok_valid st1 b l2 t2 st2 h2
  have hcached : BoPMeta.getitem st1 b l2 = Except.ok (t1, st1) := by
    apply getitem_cached st1 b l2 t1 hv2
    rw [← hset]
    exact hspec.2.2.2
  rw [h2] at hcached
  cases hcached
  exact ⟨rfl, rfl⟩

/-! ### Concrete fixtures used by the witnesses -/

/-- A valid integer descriptor class named id. -/
def colID : ColumnClass :=
  { cid := 1, clsName := ("ID"), isBoPColumnSub := true,
    nameAttr := some ("id"), datatypeAttr := some PKind.pint }

/-- A valid string descriptor class named codeJava. -/
def colCodeJava : ColumnClass :=
  { cid := 2, clsName := ("CodeJava"), isBoPColumnSub := true,
    nameAttr := some ("codeJava"), datatypeAttr := some PKind.pstr }

/-- A valid string descriptor class named status. -/
def colStatus : ColumnClass :=
  { cid := 3, clsName := ("Status"), isBoPColumnSub := true,
    nameAttr := some ("status"), datatypeAttr := some PKind.pstr }

/-- The class str: not a BoPColumn subclass at all. -/
def colBadStr : ColumnClass :=
  { cid := 10, clsName := ("str"), isBoPColumnSub := false,
    nameAttr := none, datatypeAttr := none }

/-- An abstract descriptor (IntegerColumn used directly): a BoPColumn
subclass whose datatype is a class but whose name is still the abstract
property object, hence not a str. -/
def colNoName : ColumnClass :=
  { cid := 11, clsName := ("IntegerColumn"), isBoPColumnSub := true,
    nameAttr := none, datatypeAttr := some PKind.pint }

/-- The process state at interpreter start: empty registry. -/
def st0 : GState := { registry := [], nextTypeId := 0, nextInstId := 10 }

/-- The empty registry is well-formed. -/
theorem regWF_st0 : RegWF st0 := by
  intro e he
  simp [st0] at he

/-- The class created by the first request for the set id, codeJava. -/
def tA : ShapedType := { tid := 0, typeParams := [colID, colCodeJava] }

/-- The state after that first request. -/
def stA : GState :=
  { registry := [((1, [colID, colCodeJava].toFinset), tA)],
    nextTypeId := 1, nextInstId := 10 }

/-! ### Claims -/

/-- C1: for a fixed base and any two descriptor collections with the same
underlying set (any order, duplicates allowed), consecutive calls of the
parameterization operation return the identical type object (the same
registry entry, hence reference equality), the second call leaves the
registry untouched, and the returned type records the requested descriptor
set as its column-set. -/
theorem shape_memoized_order_invariant (st : GState) (b : Nat)
    (l1 l2 : List ColumnClass) (t1 t2 : ShapedType) (st1 st2 : GState)
    (hWF : RegWF st) (hset : l1.toFinset = l2.toFinset)
    (h1 : BoPMeta.getitem st b l1 = Except.ok (t1, st1))
    (h2 : BoPMeta.getitem st1 b l2 = Except.ok (t2, st2)) :
    t2 = t1 ∧ st2 = st1 ∧ t1.typeParams.toFinset = l1.toFinset := by
  have htwice := getitem_twice st b l1 l2 t1 t2 st1 st2 hWF hset h1 h2
  have hspec := getitem_ok_spec st b l1 t1 st1 hWF h1
  exact ⟨htwice.1, htwice.2, hspec.2.1⟩

/-- Witness for C1 at the permuted, duplicated collections
[ID, CodeJava] and [CodeJava, ID, ID] from the empty registry. -/
theorem shape_memoized_order_invariant_witness :
    RegWF st0 ∧
    [colID, colCodeJava].toFinset = [colCodeJava, colID, colID].toFinset ∧
    BoPMeta.getitem st0 1 [colID, colCodeJava] = Except.ok (tA, stA) ∧
    BoPMeta.getitem stA 1 [colCodeJava, colID, colID] = Except.ok (tA, stA) ∧
    (tA = tA ∧ stA = stA ∧
      tA.typeParams.toFinset = [colID, colCodeJava].toFinset) :=
  ⟨regWF_st0, by decide, rfl, rfl,
    shape_memoized_order_invariant st0 1 [colID, colCodeJava]
      [colCodeJava, colID, colID] tA tA stA stA regWF_st0 (by decide) rfl rfl⟩

/-- C2: an instance whose class carries column-set C passes the isinstance
check against the shape with column-set S whenever S is a subset of C; an
instance of the S-shape fails the isinstance check against the C-shape
whenever S is a strict subset of C. -/
theorem instance_subset_rule (sS sC : ShapedType) :
    (∀ x : BoPInst, x.cls = BClass.shaped sC →
      sS.typeParams.toFinset ⊆ sC.typeParams.toFinset →
      BoPMeta.instancecheck (BClass.shaped sS) (PyObj.bop x) = true)
    ∧ (∀ y : BoPInst, y.cls = BClass.shaped sS →
      sS.typeParams.toFinset ⊂ sC.typeParams.toFinset →
      BoPMeta.instancecheck (BClass.shaped sC) (PyObj.bop y) = false) := by
  constructor
  · intro x hx hsub
    simp only [BoPMeta.instancecheck, hx, get_typ_params_or_empty_set,
      BClass.typeParams, decide_eq_true_eq]
    exact hsub
  · intro y hy hss
    simp only [BoPMeta.instancecheck, hy, get_typ_params_or_empty_set,
      BClass.typeParams, decide_eq_false_iff_not]
    exact hss.not_subset

/-- The narrower shape on codeJava alone. -/
def sS1 : ShapedType := { tid := 5, typeParams := [colCodeJava] }

/-- The wider shape on id and codeJava. -/
def sC2 : ShapedType := { tid := 6, typeParams := [colID, colCodeJava] }

/-- An instance of the wider shape. -/
def xC : BoPInst :=
  { objId := 0, cls := BClass.shaped sC2, df := { schema := [], rows := [] } }

/-- An instance of the narrower shape. -/
def yS : BoPInst :=
  { objId := 1, cls := BClass.shaped sS1, df := { schema := [], rows := [] } }

/-- Witness for C2 with S = set of CodeJava strictly inside
C = set of ID, CodeJava. -/
theorem instance_subset_rule_witness :
    xC.cls = BClass.shaped sC2 ∧
    sS1.typeParams.toFinset ⊆ sC2.typeParams.toFinset ∧
    BoPMeta.instancecheck (BClass.shaped sS1) (PyObj.bop xC) = true ∧
    yS.cls = BClass.shaped sS1 ∧
    sS1.typeParams.toFinset ⊂ sC2.typeParams.toFinset ∧
    BoPMeta.instancecheck (BClass.shaped sC2) (PyObj.bop yS) = false :=
  ⟨rfl, by decide, (instance_subset_rule sS1 sC2).1 xC rfl (by decide),
    rfl, by decide, (instance_subset_rule sS1 sC2).2 yS rfl (by decide)⟩

/-- C3: the sub-shape test issubclass(A, B).  A non-BoP-family candidate is
never a sub-shape; every family class is a sub-shape of the unparameterized
base; between family classes the test holds exactly when the column-set of
B is a subset of the column-set of A. -/
theorem subclass_subset_rule :
    (∀ (B : BClass) (t : Nat),
      BoPMeta.subclasscheck B (PyCls.foreign t) = false)
    ∧ (∀ A : BClass, BoPMeta.subclasscheck BClass.base (PyCls.bop A) = true)
    ∧ (∀ (B A : BClass), BoPMeta.subclasscheck B (PyCls.bop A) = true ↔
        get_typ_params_or_empty_set B ⊆ get_typ_params_or_empty_set A) := by
  refine ⟨fun B t => rfl, fun A => ?_, fun B A => ?_⟩
  · simp [BoPMeta.subclasscheck, get_typ_params_or_empty_set, BClass.typeParams]
  · simp [BoPMeta.subclasscheck]

/-- C6: a collection containing an invalid member is rejected at
parameterization time with the error for the first offending member: a
non-descriptor member raises the invalid-type error and a descriptor
member missing a string name or a class datatype raises the distinct
invalid-implementation error, each naming the offender; the Except.error
result means no Shaped Type is produced and the registry state is not
extended. -/
theorem invalid_descriptor_rejected (st : GState) (b : Nat)
    (pre : List ColumnClass) (t : ColumnClass) (rest : List ColumnClass)
    (hpre : ∀ u ∈ pre, colOK u = true) :
    (t.isBoPColumnSub = false →
      BoPMeta.getitem st b (pre ++ t :: rest)
        = Except.error (BoPError.invalidType t.clsName))
    ∧ (t.isBoPColumnSub = true →
      (t.nameAttr.isSome && t.datatypeAttr.isSome) = false →
      BoPMeta.getitem st b (pre ++ t :: rest)
        = Except.error (BoPError.invalidImplementation t.clsName)) := by
  constructor
  · intro h1
    have hv : validateColumns (pre ++ t :: rest)
        = some (BoPError.invalidType t.clsName) := by
      rw [validateColumns_append_of_valid pre _ hpre]
      simp [validateColumns, h1]
    unfold BoPMeta.getitem
    rw [hv]
  · intro h1 h2
    have hv : validateColumns (pre ++ t :: rest)
        = some (BoPError.invalidImplementation t.clsName) := by
      rw [validateColumns_append_of_valid pre _ hpre]
      simp [validateColumns, h1, h2]
    unfold BoPMeta.getitem
    rw [hv]

/-- Witness for C6: str after a valid descriptor is rejected as a
non-descriptor, and IntegerColumn (datatype but abstract name) is rejected
as a malformed descriptor, each named in the error. -/
theorem invalid_descriptor_rejected_witness :
    (∀ u ∈ [colID], colOK u = true) ∧
    colBadStr.isBoPColumnSub = false ∧
    BoPMeta.getitem st0 1 ([colID] ++ colBadStr :: [colCodeJava])
      = Except.error (BoPError.invalidType colBadStr.clsName) ∧
    (∀ u ∈ ([] : List ColumnClass), colOK u = true) ∧
    colNoName.isBoPColumnSub = true ∧
    (colNoName.nameAttr.isSome && colNoName.datatypeAttr.isSome) = false ∧
    BoPMeta.getitem st0 1 ([] ++ colNoName :: [])
      = Except.error (BoPError.invalidImplementation colNoName.clsName) :=
  ⟨by decide, rfl,
    (invalid_descriptor_rejected st0 1 [colID] colBadStr [colCodeJava]
      (by decide)).1 rfl,
    by simp, rfl, rfl,
    (invalid_descriptor_rejected st0 1 [] colNoName []
      (by simp)).2 rfl rfl⟩

/-- Replacing the value stored under an existing key keeps the key list of
a dict unchanged. -/
theorem keys_map_replace (d : List (String × PKind)) (k : String) (v : PKind) :
    (d.map (fun p => if p.1 = k then (k, v) else p)).map Prod.fst
      = d.map Prod.fst := by
  rw [List.map_map]
  apply List.map_congr_left
  intro p _
  by_cases hpk : p.1 = k
  · simp [hpk]
  · simp [hpk]

/-- The key list of a dict after insertion contains a name exactly when the
dict already contained it or it is the inserted key. -/
theorem mem_keys_dictInsert (d : List (String × PKind)) (k : String)
    (v : PKind) (n : String) :
    n ∈ (dictInsert d k v).map Prod.fst ↔ n ∈ d.map Prod.fst ∨ n = k := by
  unfold dictInsert
  by_cases hany : d.any (fun p => decide (p.1 = k)) = true
  · rw [if_pos hany, keys_map_replace]
    constructor
    · exact Or.inl
    · intro h
      cases h with
      | inl h => exact h
      | inr h =>
        subst h
        rcases List.any_eq_true.mp hany with ⟨p, hp, hpk⟩
        simp only [decide_eq_true_eq] at hpk
        exact List.mem_map.mpr ⟨p, hp, hpk⟩
  · rw [if_neg hany]
    simp [List.map_append]

/-- Inserting into a dict with duplicate-free keys keeps the keys
duplicate-free. -/
theorem keys_nodup_dictInsert (d : List (String × PKind)) (k : String)
    (v : PKind) (h : (d.map Prod.fst).Nodup) :
    ((dictInsert d k v).map Prod.fst).Nodup := by
  unfold dictInsert
  by_cases hany : d.any (fun p => decide (p.1 = k)) = true
  · rw [if_pos hany, keys_map_replace]
    exact h
  · rw [if_neg hany, List.map_append]
    rw [List.nodup_append]
    refine ⟨h, by simp, ?_⟩
    intro a ha hb
    simp only [List.map_cons, List.map_nil, List.mem_singleton] at hb
    subst hb
    rcases List.mem_map.mp ha with ⟨p, hp, hpk⟩
    exact hany (List.any_eq_true.mpr ⟨p, hp, by simp [hpk]⟩)

/-- Names present after folding the schema dict: those of the accumulator
plus the descriptor names. -/
theorem mem_keys_buildSchema_go :
    ∀ (tp : List ColumnClass) (d : List (String × PKind)) (n : String),
    (n ∈ (tp.foldl (fun d c => dictInsert d (colName c) (colKind c)) d).map
        Prod.fst)
      ↔ n ∈ d.map Prod.fst ∨ n ∈ tp.map colName := by
  intro tp
  induction tp with
  | nil => intro d n; simp
  | cons c tp ih =>
    intro d n
    rw [List.foldl_cons, ih, mem_keys_dictInsert]
    simp only [List.map_cons, List.mem_cons]
    tauto

/-- Folding the schema dict preserves duplicate-freedom of the keys. -/
theorem keys_nodup_buildSchema_go :
    ∀ (tp : List ColumnClass) (d : List (String × PKind)),
    (d.map Prod.fst).Nodup →
    (((tp.foldl (fun d c => dictInsert d (colName c) (colKind c)) d)).map
      Prod.fst).Nodup := by
  intro tp
  induction tp with
  | nil => intro d h; exact h
  | cons c tp ih =>
    intro d h
    rw [List.foldl_cons]
    exact ih _ (keys_nodup_dictInsert d (colName c) (colKind c) h)

/-- With pairwise-distinct descriptor names the schema dict is just the
name-to-kind image of the descriptor tuple, appended to the accumulator. -/
theorem buildSchema_go_of_nodup :
    ∀ (tp : List ColumnClass) (d : List (String × PKind)),
    (∀ c ∈ tp, ∀ p ∈ d, p.1 ≠ colName c) → (tp.map colName).Nodup →
    tp.foldl (fun d c => dictInsert d (colName c) (colKind c)) d
      = d ++ tp.map (fun c => (colName c, colKind c)) := by
  intro tp
  induction tp with
  | nil => intro d _ _; simp
  | cons c tp ih =>
    intro d hdis hnd
    rw [List.foldl_cons]
    have hany : d.any (fun p => decide (p.1 = colName c)) = false := by
      rw [List.any_eq_false]
      intro p hp
      simp only [decide_eq_true_eq]
      exact hdis c (List.mem_cons_self c tp) p hp
    have hins : dictInsert d (colName c) (colKind c)
        = d ++ [(colName c, colKind c)] := by
      unfold dictInsert
      rw [if_neg (by rw [hany]; exact Bool.false_ne_true)]
    rw [hins, ih]
    · rw [List.append_assoc]
      rfl
    · intro c2 hc2 p hp
      rcases List.mem_append.mp hp with h | h
      · exact hdis c2 (List.mem_cons_of_mem c hc2) p h
      · simp only [List.mem_singleton] at h
        subst h
        intro hcontra
        have hcc : colName c = colName c2 := hcontra
        have hn1 : colName c ∉ tp.map colName := (List.nodup_cons.mp hnd).1
        exact hn1 (by rw [hcc]; exact List.mem_map_of_mem colName hc2)
    · exact (List.nodup_cons.mp hnd).2

/-- Looking a name up through the zip of a schema with the row built from
that schema recovers exactly the record lookup for that name. -/
theorem find_zip_map_cell :
    ∀ (s : List (String × PKind)) (r : PyRec) (n : String),
    n ∈ s.map Prod.fst →
    ((s.zip (s.map (fun kv => recGet r kv.1))).find?
        (fun p => decide (p.1.1 = n))).map (fun p => p.2)
      = some (recGet r n) := by
  intro s
  induction s with
  | nil => intro r n h; simp at h
  | cons kv s ih =>
    intro r n hn
    rw [List.map_cons, List.zip_cons_cons]
    by_cases hk : kv.1 = n
    · rw [List.find?_cons_of_pos _ (by simp [hk])]
      simp [hk]
    · rw [List.find?_cons_of_neg _ (by simp [hk])]
      apply ih
      simp only [List.map_cons, List.mem_cons] at hn
      cases hn with
      | inl h => exact absurd h.symm hk
      | inr h => exact h

/-- The cell of a constructed frame at an existing row and a declared
column name is exactly the record lookup of that name. -/
theorem create_dataframe_cell (tp : List ColumnClass) (rows : List PyRec)
    (j : Nat) (r0 : PyRec) (n : String)
    (hget : rows.get? j = some r0) (hn : n ∈ tp.map colName) :
    (BoP.create_dataframe tp (some rows)).cell j n = some (recGet r0 n) := by
  cases rows with
  | nil => simp at hget
  | cons r rs =>
    have hmem : n ∈ (buildSchema tp).map Prod.fst := by
      unfold buildSchema
      rw [mem_keys_buildSchema_go]
      simp [hn]
    unfold BoP.create_dataframe DataFrame.cell
    simp only [List.get?_map, hget, Option.map_some']
    exact find_zip_map_cell (buildSchema tp) r0 n hmem

/-- The schema of a constructed frame is the schema dict of the owning
type, whatever the data argument. -/
theorem create_dataframe_schema (tp : List ColumnClass)
    (data : Option (List PyRec)) :
    (BoP.create_dataframe tp data).schema = buildSchema tp := by
  cases data with
  | none => rfl
  | some rows => cases rows <;> rfl

/-- C5: construction fixes the columns to exactly the column-set names
(duplicate-free, with the declared kinds when names are distinct), keeps
one output row per input record, fills every declared column of a row from
the record (the lookup yields the stored value when the field is present
and the missing marker none when absent, and fields outside the schema
never appear), and produces a zero-row frame with the full schema on no
data or an empty record sequence. -/
theorem construction_shape_enforcement (tp : List ColumnClass)
    (data : Option (List PyRec)) :
    ((BoP.create_dataframe tp data).schema.map Prod.fst).Nodup
    ∧ (∀ n, n ∈ (BoP.create_dataframe tp data).schema.map Prod.fst ↔
        n ∈ tp.map colName)
    ∧ ((tp.map colName).Nodup →
        (BoP.create_dataframe tp data).schema
          = tp.map (fun c => (colName c, colKind c)))
    ∧ (∀ rows, data = some rows →
        (BoP.create_dataframe tp data).rows.length = rows.length)
    ∧ (∀ rows j r0 n, data = some rows → rows.get? j = some r0 →
        n ∈ tp.map colName →
        (BoP.create_dataframe tp data).cell j n = some (recGet r0 n))
    ∧ ((data = none ∨ data = some []) →
        (BoP.create_dataframe tp data).rows = []) := by
  refine ⟨?_, ?_, ?_, ?_, ?_, ?_⟩
  · rw [create_dataframe_schema]
    exact keys_nodup_buildSchema_go tp [] (by simp)
  · intro n
    rw [create_dataframe_schema]
    unfold buildSchema
    rw [mem_keys_buildSchema_go]
    simp
  · intro hnd
    rw [create_dataframe_schema]
    unfold buildSchema
    rw [buildSchema_go_of_nodup tp [] (by simp) hnd]
    rfl
  · intro rows hr
    subst hr
    cases rows with
    | nil => rfl
    | cons r rs => simp [BoP.create_dataframe]
  · intro rows j r0 n hr hget hn
    subst hr
    exact create_dataframe_cell tp rows j r0 n hget hn
  · intro h
    cases h with
    | inl h => subst h; rfl
    | inr h => subst h; rfl

/-- Record with id, status and an undeclared extra field. -/
def rec1 : PyRec :=
  [(("id"), PVal.vint 1), (("status"), PVal.vstr ("ok")),
    (("extra"), PVal.vstr ("x"))]

/-- Record with only id: status is absent. -/
def rec2 : PyRec := [(("id"), PVal.vint 2)]

/-- Witness for C5 on shape id, status with records carrying an extra
field and a missing field. -/
theorem construction_shape_enforcement_witness :
    ([colID, colStatus].map colName).Nodup ∧
    ([rec1, rec2].get? 1 = some rec2) ∧
    (("status") ∈ [colID, colStatus].map colName) ∧
    (BoP.create_dataframe [colID, colStatus] (some [rec1, rec2])).cell 1
        ("status") = some (recGet rec2 ("status")) ∧
    (BoP.create_dataframe [colID, colStatus] (some [rec1, rec2])).schema
      = [colID, colStatus].map (fun c => (colName c, colKind c)) :=
  ⟨by decide, rfl, by decide,
    (construction_shape_enforcement [colID, colStatus]
        (some [rec1, rec2])).2.2.2.2.1 [rec1, rec2] 1 rec2 ("status") rfl rfl
        (by decide),
    (construction_shape_enforcement [colID, colStatus]
        (some [rec1, rec2])).2.2.1 (by decide)⟩

/-- A dict element is processed to exactly the row that create_dataframe
builds for the record. -/
theorem processJsonRow_dict (r : PyRec) :
    ∀ schema : List (String × PKind),
    processJsonRow (JElem.jdict r) schema
      = Except.ok (schema.map (fun kv => recGet r kv.1))
  | [] => rfl
  | kv :: s => by
    simp only [processJsonRow, elemGet, processJsonRow_dict r s,
      List.map_cons]

/-- A list of dict elements is processed to exactly the rows that
create_dataframe builds for the records. -/
theorem processJsonRows_dicts (schema : List (String × PKind)) :
    ∀ recs : List PyRec,
    processJsonRows schema (recs.map JElem.jdict)
      = Except.ok (recs.map (fun r => schema.map (fun kv => recGet r kv.1)))
  | [] => rfl
  | r :: recs => by
    simp only [List.map_cons, processJsonRows, processJsonRow_dict,
      processJsonRows_dicts schema recs]

/-- With the empty schema no element is ever inspected: every row, dict or
not, processes to the empty row. -/
theorem processJsonRows_nil_schema :
    ∀ elems : List JElem,
    processJsonRows [] elems = Except.ok (elems.map (fun _ => []))
  | [] => rfl
  | v :: vs => by
    simp only [processJsonRows, processJsonRow,
      processJsonRows_nil_schema vs, List.map_cons]

/-- With a nonempty schema, the first non-dict element aborts processing
with its AttributeError. -/
theorem processJsonRows_first_other (kv : String × PKind)
    (s : List (String × PKind)) :
    ∀ (pre : List PyRec) (tn : String) (rest : List JElem),
    processJsonRows (kv :: s) (pre.map JElem.jdict ++ JElem.jother tn :: rest)
      = Except.error (tn ++ (" object has no attribute get"))
  | [], tn, rest => by
    simp only [List.map_nil, List.nil_append, processJsonRows,
      processJsonRow, elemGet]
  | r :: pre, tn, rest => by
    simp only [List.map_cons, List.cons_append, processJsonRows,
      processJsonRow_dict, List.append_eq,
      processJsonRows_first_other kv s pre tn rest]

/-- The construction reached from from_json agrees with create_dataframe
on every list of records. -/
theorem create_dataframe_json_dicts (tp : List ColumnClass)
    (recs : List PyRec) :
    create_dataframe_json tp (recs.map JElem.jdict)
      = Except.ok (BoP.create_dataframe tp (some recs)) := by
  cases recs with
  | nil => rfl
  | cons r rs =>
    have h := processJsonRows_dicts (buildSchema tp) (r :: rs)
    rw [List.map_cons] at h
    simp only [List.map_cons, create_dataframe_json]
    rw [h]
    rfl

/-- A nonempty descriptor tuple yields a nonempty schema dict. -/
theorem buildSchema_ne_nil (tp : List ColumnClass) (htp : tp ≠ []) :
    buildSchema tp ≠ [] := by
  cases tp with
  | nil => exact absurd rfl htp
  | cons c tp2 =>
    intro h
    have hmem : colName c ∈ (buildSchema (c :: tp2)).map Prod.fst := by
      unfold buildSchema
      rw [mem_keys_buildSchema_go]
      exact Or.inr (List.mem_map_of_mem colName (List.mem_cons_self c tp2))
    rw [h] at hmem
    simp at hmem

/-- C8 as amended: every read or parse failure and every non-list
top-level value raises the load error carrying the loading context and
the underlying cause, a parsed list of records builds the container
through the ordinary construction, a list containing a non-record raises
the wrapped AttributeError whenever the shape has at least one column —
but with the zero-column shape the elements are never inspected and a
zero-column container is returned silently — and a successful result only
ever arises from a parsed top-level list. -/
theorem from_json_load_error_paths (tp : List ColumnClass)
    (o : Except String JsonTop) :
    (∀ cause, o = Except.error cause →
      BoP.from_json tp o
        = Except.error ("Error loading JSON file: " ++ cause))
    ∧ (o = Except.ok JsonTop.jnonlist →
      BoP.from_json tp o = Except.error
        ("Error loading JSON file: JSON file must contain a list of dictionaries."))
    ∧ (∀ recs, o = Except.ok (JsonTop.jlist (recs.map JElem.jdict)) →
      BoP.from_json tp o
        = Except.ok (BoP.create_dataframe tp (some recs)))
    ∧ (∀ (pre : List PyRec) (tn : String) (rest : List JElem), tp ≠ [] →
      o = Except.ok (JsonTop.jlist
        (pre.map JElem.jdict ++ JElem.jother tn :: rest)) →
      BoP.from_json tp o = Except.error
        ("Error loading JSON file: "
          ++ (tn ++ (" object has no attribute get"))))
    ∧ (tp = [] → ∀ elems, o = Except.ok (JsonTop.jlist elems) →
      ∃ df, BoP.from_json tp o = Except.ok df ∧ df.schema = [])
    ∧ (∀ df, BoP.from_json tp o = Except.ok df →
      ∃ elems, o = Except.ok (JsonTop.jlist elems)
        ∧ create_dataframe_json tp elems = Except.ok df) := by
  refine ⟨?_, ?_, ?_, ?_, ?_, ?_⟩
  · intro cause h; subst h; rfl
  · intro h; subst h; rfl
  · intro recs h
    subst h
    simp only [BoP.from_json, create_dataframe_json_dicts]
  · intro pre tn rest htp h
    subst h
    obtain ⟨kv, s, hsch⟩ :
        ∃ kv s, buildSchema tp = kv :: s := by
      cases hs : buildSchema tp with
      | nil => exact absurd hs (buildSchema_ne_nil tp htp)
      | cons kv s => exact ⟨kv, s, rfl⟩
    have hrows : processJsonRows (buildSchema tp)
        (pre.map JElem.jdict ++ JElem.jother tn :: rest)
        = Except.error (tn ++ (" object has no attribute get")) := by
      rw [hsch]
      exact processJsonRows_first_other kv s pre tn rest
    have hcj : create_dataframe_json tp
        (pre.map JElem.jdict ++ JElem.jother tn :: rest)
        = Except.error (tn ++ (" object has no attribute get")) := by
      cases pre with
      | nil =>
        simp only [List.map_nil, List.nil_append] at hrows ⊢
        simp only [create_dataframe_json]
        rw [hrows]
      | cons r pre2 =>
        simp only [List.map_cons, List.cons_append] at hrows ⊢
        simp only [create_dataframe_json]
        rw [hrows]
    simp only [BoP.from_json, hcj]
  · intro htp elems h
    subst htp
    subst h
    cases elems with
    | nil => exact ⟨{ schema := buildSchema [], rows := [] }, rfl, rfl⟩
    | cons v vs =>
      refine ⟨{ schema := buildSchema [], rows := (v :: vs).map (fun _ => []) }, ?_, rfl⟩
      simp only [BoP.from_json, create_dataframe_json, buildSchema,
        List.foldl_nil, processJsonRows_nil_schema (v :: vs)]
  · intro df h
    cases o with
    | error cause => cases h
    | ok v =>
      cases v with
      | jnonlist => cases h
      | jlist elems =>
        refine ⟨elems, rfl, ?_⟩
        simp only [BoP.from_json] at h
        cases hc : create_dataframe_json tp elems with
        | error e =>
          rw [hc] at h
          simp at h
        | ok df0 =>
          rw [hc] at h
          have hdf : df0 = df := by simpa using h
          rw [hdf]

/-- Counterexample for C8 as stated: loading a JSON array of plain
integers through the zero-column base shape raises nothing and silently
returns a container with no columns. -/
theorem from_json_silent_empty_counterexample :
    BoP.from_json [] (Except.ok (JsonTop.jlist
        [JElem.jother ("int"), JElem.jother ("int"), JElem.jother ("int")]))
      = Except.ok { schema := [], rows := [[], [], []] } := rfl

/-- Witness for the amended C8: a non-dict element after a record raises
the wrapped AttributeError on a one-column shape, and a list of records
builds the ordinary container. -/
theorem from_json_load_error_paths_witness :
    ([colID] ≠ ([] : List ColumnClass)) ∧
    BoP.from_json [colID] (Except.ok (JsonTop.jlist
        ([rec2].map JElem.jdict ++ JElem.jother ("int") :: [])))
      = Except.error
        ("Error loading JSON file: "
          ++ (("int") ++ (" object has no attribute get"))) ∧
    BoP.from_json [colID, colStatus]
        (Except.ok (JsonTop.jlist ([rec1, rec2].map JElem.jdict)))
      = Except.ok (BoP.create_dataframe [colID, colStatus]
          (some [rec1, rec2])) :=
  ⟨by simp,
    (from_json_load_error_paths [colID] (Except.ok (JsonTop.jlist
        ([rec2].map JElem.jdict ++ JElem.jother ("int") :: [])))).2.2.2.1
      [rec2] ("int") [] (by simp) rfl,
    (from_json_load_error_paths [colID, colStatus]
        (Except.ok (JsonTop.jlist ([rec1, rec2].map JElem.jdict)))).2.2.1
      [rec1, rec2] rfl⟩

/-- Filtering a zip by a predicate on the first component realigns with the
filtered first list when the lists have equal length. -/
theorem filter_zip_eq {α β : Type} (p : α → Bool) :
    ∀ (s : List α) (r : List β), r.length = s.length →
    (s.filter p).zip (((s.zip r).filter (fun q => p q.1)).map (fun q => q.2))
      = (s.zip r).filter (fun q => p q.1)
  | [], r, _ => by simp
  | a :: s, [], h => by simp at h
  | a :: s, b :: r, h => by
    have hlen : r.length = s.length := by simpa using h
    cases hpa : p a with
    | true =>
      rw [List.zip_cons_cons, List.filter_cons_of_pos hpa,
        @List.filter_cons_of_pos (α × β) (fun q => p q.1) (a, b) (s.zip r) hpa,
        List.map_cons, List.zip_cons_cons, filter_zip_eq p s r hlen]
    | false =>
      rw [List.zip_cons_cons,
        @List.filter_cons_of_neg α p a s (by simp [hpa]),
        @List.filter_cons_of_neg (α × β) (fun q => p q.1) (a, b) (s.zip r)
          (by simp [hpa])]
      exact filter_zip_eq p s r hlen

/-- A filter keeping everything the search predicate accepts does not
change the result of the search. -/
theorem find?_filter_of_imp {α : Type} (q p : α → Bool)
    (himp : ∀ x, q x = true → p x = true) :
    ∀ l : List α, (l.filter p).find? q = l.find? q
  | [] => rfl
  | a :: l => by
    cases hqa : q a with
    | true =>
      rw [List.filter_cons_of_pos (himp a hqa),
        List.find?_cons_of_pos _ hqa, List.find?_cons_of_pos _ hqa]
    | false =>
      cases hpa : p a with
      | true =>
        rw [List.filter_cons_of_pos hpa,
          List.find?_cons_of_neg _ (by simp [hqa]),
          List.find?_cons_of_neg _ (by simp [hqa])]
        exact find?_filter_of_imp q p himp l
      | false =>
        rw [List.filter_cons_of_neg (by simp [hpa]),
          List.find?_cons_of_neg _ (by simp [hqa])]
        exact find?_filter_of_imp q p himp l

/-- Projection preserves cells: in a well-formed frame, a kept column reads
the same cell in every row before and after the projection. -/
theorem selectColumns_cell (df : DataFrame) (ns : List String)
    (hdfWF : ∀ row ∈ df.rows, row.length = df.schema.length)
    (n : String) (hn : n ∈ ns) (j : Nat) :
    (df.selectColumns ns).cell j n = df.cell j n := by
  unfold DataFrame.selectColumns DataFrame.cell
  simp only [List.get?_map]
  cases hg : df.rows.get? j with
  | none => rfl
  | some row =>
    have hrow : row.length = df.schema.length := hdfWF row (List.get?_mem hg)
    simp only [Option.map_some']
    rw [filter_zip_eq (fun kv => ns.contains kv.1) df.schema row hrow]
    rw [find?_filter_of_imp (fun p => decide (p.1.1 = n))
      (fun q => ns.contains q.1.1) ?_ (df.schema.zip row)]
    intro x hx
    simp only [decide_eq_true_eq] at hx
    show ns.contains x.1.1 = true
    rw [hx]
    exact List.elem_eq_true_of_mem hn

/-- Whether a positional argument is a BoP-family instance, i.e. passes
isinstance(arg, BoP). -/
def isBopObj : PyObj → Bool
  | PyObj.bop _ => true
  | PyObj.other _ => false

/-- The condition under which the wrapper narrows an argument for a hint
with the given _type_params tuple: a BoP instance whose column-set
contains the required set. -/
def matchesRequired (required : List ColumnClass) : PyObj → Bool
  | PyObj.bop inst =>
    decide (required.toFinset ⊆ (BClass.typeParams inst.cls).toFinset)
  | PyObj.other _ => false

/-- When no argument matches, the scan returns the argument list and the
state completely unchanged, and raises nothing. -/
theorem narrowArgs_no_match (st : GState) (required : List ColumnClass) :
    ∀ args : List PyObj, (∀ o ∈ args, matchesRequired required o = false) →
    narrowArgs st required args = Except.ok (st, args) := by
  intro args
  induction args with
  | nil => intro _; rfl
  | cons a args ih =>
    intro h
    have ha := h a (List.mem_cons_self a args)
    have hrest : ∀ o ∈ args, matchesRequired required o = false :=
      fun o ho => h o (List.mem_cons_of_mem a ho)
    cases a with
    | bop inst =>
      have hsub :
          ¬ required.toFinset ⊆ (BClass.typeParams inst.cls).toFinset := by
        simpa [matchesRequired] using ha
      simp only [narrowArgs]
      rw [if_neg hsub, ih hrest]
    | other t =>
      simp only [narrowArgs]
      rw [ih hrest]

/-- The scan passes over a prefix of non-BoP arguments untouched and
behaves on the suffix as it would alone. -/
theorem narrowArgs_skip_other (st : GState) (required : List ColumnClass) :
    ∀ (pre args : List PyObj), (∀ o ∈ pre, isBopObj o = false) →
    narrowArgs st required (pre ++ args)
      = match narrowArgs st required args with
        | Except.error e => Except.error e
        | Except.ok (st1, args1) => Except.ok (st1, pre ++ args1) := by
  intro pre
  induction pre with
  | nil =>
    intro args _
    cases hna : narrowArgs st required args with
    | error e => simp [hna]
    | ok p => rcases p with ⟨st1, args1⟩; simp [hna]
  | cons o pre ih =>
    intro args h
    have ho := h o (List.mem_cons_self o pre)
    cases o with
    | bop i => simp [isBopObj] at ho
    | other t =>
      rw [List.cons_append]
      simp only [narrowArgs]
      rw [ih args (fun o2 ho2 => h o2 (List.mem_cons_of_mem _ ho2))]
      cases hna : narrowArgs st required args with
      | error e => simp [hna]
      | ok p => rcases p with ⟨st1, args1⟩; simp [hna]

/-- The outer hint loop ignores hints that are not BoP-family classes. -/
theorem processHints_skip_foreign :
    ∀ (hs : List PyCls), (∀ h ∈ hs, ∃ t, h = PyCls.foreign t) →
    ∀ (st : GState) (hs2 : List PyCls) (args : List PyObj),
    processHints st (hs ++ hs2) args = processHints st hs2 args := by
  intro hs
  induction hs with
  | nil => intro _ st hs2 args; rfl
  | cons h hs ih =>
    intro hall st hs2 args
    rcases hall h (List.mem_cons_self h hs) with ⟨t, ht⟩
    subst ht
    rw [List.cons_append]
    exact ih (fun h2 hh => hall h2 (List.mem_cons_of_mem _ hh)) st hs2 args

/-- Projecting to the empty name list drops every column of every row. -/
theorem selectColumns_nil (df : DataFrame) :
    (df.selectColumns []).schema = []
    ∧ ∀ row ∈ (df.selectColumns []).rows, row = [] := by
  constructor
  · unfold DataFrame.selectColumns
    simp
  · intro row hrow
    unfold DataFrame.selectColumns at hrow
    rcases List.mem_map.mp hrow with ⟨r0, _, heq⟩
    rw [← heq]
    have hfil : ((df.schema.zip r0).filter
        (fun p => ([] : List String).contains p.1.1)) = [] := by simp
    rw [hfil, List.map_nil]

/-- One scan step on a matching head argument: the head is replaced by the
casted instance of the class obtained from the parameterization engine, a
fresh instance identity is consumed, and the loop breaks (the tail is
untouched). -/
theorem narrowArgs_single_match (st : GState) (required : List ColumnClass)
    (a : BoPInst) (rest : List PyObj) (c : ShapedType) (st1 : GState)
    (hsub : required.toFinset ⊆ (BClass.typeParams a.cls).toFinset)
    (hget : BoPMeta.getitem st bopBaseId required.dedup
      = Except.ok (c, st1)) :
    narrowArgs st required (PyObj.bop a :: rest)
      = Except.ok ({st1 with nextInstId := st1.nextInstId + 1},
          PyObj.bop (narrowedInstance st1.nextInstId c a.df required)
            :: rest) := by
  simp only [narrowArgs]
  rw [if_pos hsub, hget]

/-- A single BoP-family hint runs exactly one scan. -/
theorem processHints_single_bop (st : GState) (cb : BClass)
    (args : List PyObj) (st1 : GState) (args1 : List PyObj)
    (h : narrowArgs st (BClass.typeParams cb) args
      = Except.ok (st1, args1)) :
    processHints st [PyCls.bop cb] args = Except.ok (st1, args1) := by
  simp only [processHints]
  rw [h]

/-- The signature of a function with a single annotated parameter and no
return annotation. -/
def paramOnly (h : PyCls) : FuncSig := { paramHints := [h], returnHint := none }

/-- C4: a decorated function declaring a parameter of the shape with
column-set R, called with a BoP argument whose column-set contains R,
receives in that position a fresh instance (a new object identity, so the
caller's argument value is untouched) whose runtime shape is exactly R and
whose table is the column projection of the argument's table to the names
of R, with the same number of rows and every kept cell preserved. -/
theorem narrowing_correct (st : GState) (rc : ShapedType) (a : BoPInst)
    (hWF : RegWF st)
    (hvalid : ∀ t ∈ rc.typeParams, colOK t = true)
    (hsub : rc.typeParams.toFinset ⊆ (BClass.typeParams a.cls).toFinset)
    (hdfWF : ∀ row ∈ a.df.rows, row.length = a.df.schema.length)
    (hfresh : a.objId < st.nextInstId) :
    ∃ st2 a2,
      castBoPtype (paramOnly (PyCls.bop (BClass.shaped rc))) st
          [PyObj.bop a]
        = Except.ok (st2, [PyObj.bop a2])
      ∧ get_typ_params_or_empty_set a2.cls = rc.typeParams.toFinset
      ∧ a2.df.schema = a.df.schema.filter
          (fun kv => (rc.typeParams.dedup.map colName).contains kv.1)
      ∧ a2.df.rows.length = a.df.rows.length
      ∧ (∀ j n, n ∈ rc.typeParams.map colName →
          a2.df.cell j n = a.df.cell j n)
      ∧ a2.objId ≠ a.objId := by
  have hvdedup : validateColumns rc.typeParams.dedup = none := by
    rw [validateColumns_eq_none_iff]
    intro t ht
    exact hvalid t (List.mem_dedup.mp ht)
  obtain ⟨c, st1, hget⟩ := getitem_total st bopBaseId rc.typeParams.dedup
    hvdedup
  have hspec := getitem_ok_spec st bopBaseId rc.typeParams.dedup c st1 hWF
    hget
  refine ⟨{st1 with nextInstId := st1.nextInstId + 1},
    narrowedInstance st1.nextInstId c a.df rc.typeParams,
    ?_, ?_, rfl, ?_, ?_, ?_⟩
  · exact processHints_single_bop st (BClass.shaped rc) [PyObj.bop a] _ _
      (narrowArgs_single_match st rc.typeParams a [] c st1 hsub hget)
  · show (BClass.shaped c).typeParams.toFinset = rc.typeParams.toFinset
    simp only [BClass.typeParams]
    rw [hspec.2.1, toFinset_dedup_eq]
  · show (a.df.rows.map _).length = a.df.rows.length
    exact List.length_map _ _
  · intro j n hn
    have hn2 : n ∈ rc.typeParams.dedup.map colName := by
      rcases List.mem_map.mp hn with ⟨t, ht, rfl⟩
      exact List.mem_map_of_mem colName (List.mem_dedup.mpr ht)
    exact selectColumns_cell a.df (rc.typeParams.dedup.map colName) hdfWF n
      hn2 j
  · show st1.nextInstId ≠ a.objId
    rw [hspec.2.2.1]
    exact Ne.symm (Nat.ne_of_lt hfresh)

/-- The one row of the wide instance used in the narrowing witnesses. -/
def recW : PyRec := [(("id"), PVal.vint 1), (("codeJava"), PVal.vstr ("print"))]

/-- A one-row instance of the shape id, codeJava. -/
def aWide : BoPInst :=
  { objId := 5,
    cls := BClass.shaped { tid := 7, typeParams := [colID, colCodeJava] },
    df := BoP.create_dataframe [colID, colCodeJava] (some [recW]) }

/-- The declared parameter shape on codeJava alone. -/
def rcNarrow : ShapedType := { tid := 9, typeParams := [colCodeJava] }

/-- Witness for C4: narrowing a one-row id, codeJava instance to the
codeJava shape. -/
theorem narrowing_correct_witness :
    RegWF st0 ∧
    (∀ t ∈ rcNarrow.typeParams, colOK t = true) ∧
    rcNarrow.typeParams.toFinset ⊆ (BClass.typeParams aWide.cls).toFinset ∧
    (∀ row ∈ aWide.df.rows, row.length = aWide.df.schema.length) ∧
    aWide.objId < st0.nextInstId ∧
    (∃ st2 a2,
      castBoPtype (paramOnly (PyCls.bop (BClass.shaped rcNarrow))) st0
          [PyObj.bop aWide]
        = Except.ok (st2, [PyObj.bop a2])
      ∧ get_typ_params_or_empty_set a2.cls = rcNarrow.typeParams.toFinset
      ∧ a2.df.schema = aWide.df.schema.filter
          (fun kv => (rcNarrow.typeParams.dedup.map colName).contains kv.1)
      ∧ a2.df.rows.length = aWide.df.rows.length
      ∧ (∀ j n, n ∈ rcNarrow.typeParams.map colName →
          a2.df.cell j n = aWide.df.cell j n)
      ∧ a2.objId ≠ aWide.objId) :=
  ⟨regWF_st0, by decide, by decide, by decide, by decide,
    narrowing_correct st0 rcNarrow aWide regWF_st0 (by decide) (by decide)
      (by decide) (by decide)⟩

/-- C7: when no positional argument is a BoP instance whose column-set
contains the declared parameter shape's required set, the decorator
forwards the argument list to the wrapped function completely unchanged
(same objects, same shapes, same tables) with the state untouched, and
raises nothing. -/
theorem narrowing_non_match_passthrough (st : GState) (c : BClass)
    (args : List PyObj)
    (h : ∀ o ∈ args, matchesRequired (BClass.typeParams c) o = false) :
    castBoPtype (paramOnly (PyCls.bop c)) st args = Except.ok (st, args) := by
  exact processHints_single_bop st c args st args
    (narrowArgs_no_match st (BClass.typeParams c) args h)

/-- An instance of the shape with only the id column. -/
def aID : BoPInst :=
  { objId := 6, cls := BClass.shaped { tid := 12, typeParams := [colID] },
    df := BoP.create_dataframe [colID] (some [rec2]) }

/-- Witness for C7: an id-shaped argument does not satisfy a codeJava
parameter shape and passes through unchanged. -/
theorem narrowing_non_match_passthrough_witness :
    (∀ o ∈ [PyObj.other 3, PyObj.bop aID],
      matchesRequired (BClass.typeParams (BClass.shaped rcNarrow)) o
        = false) ∧
    castBoPtype (paramOnly (PyCls.bop (BClass.shaped rcNarrow))) st0
        [PyObj.other 3, PyObj.bop aID]
      = Except.ok (st0, [PyObj.other 3, PyObj.bop aID]) :=
  ⟨by decide,
    narrowing_non_match_passthrough st0 (BClass.shaped rcNarrow)
      [PyObj.other 3, PyObj.bop aID] (by decide)⟩

/-- C9: a parameter annotated with the unparameterized base makes the
required set empty, which every BoP argument satisfies, so the first BoP
positional argument is always replaced by an instance of the empty shape
whose table has no columns at all. -/
theorem base_hint_always_narrows (st : GState) (pre : List PyObj)
    (a : BoPInst) (rest : List PyObj) (hWF : RegWF st)
    (hpre : ∀ o ∈ pre, isBopObj o = false) :
    ∃ st2 c a2,
      castBoPtype (paramOnly (PyCls.bop BClass.base)) st
          (pre ++ PyObj.bop a :: rest)
        = Except.ok (st2, pre ++ PyObj.bop a2 :: rest)
      ∧ a2.cls = BClass.shaped c
      ∧ c.typeParams = []
      ∧ a2.df.schema = []
      ∧ (∀ row ∈ a2.df.rows, row = []) := by
  obtain ⟨c, st1, hget⟩ :=
    getitem_total st bopBaseId ([] : List ColumnClass) rfl
  have hspec := getitem_ok_spec st bopBaseId ([] : List ColumnClass) c st1
    hWF hget
  have hcp : c.typeParams = [] := by
    have h2 : c.typeParams.toFinset = ∅ := by simpa using hspec.2.1
    rwa [List.toFinset_eq_empty_iff] at h2
  have hhead := narrowArgs_single_match st ([] : List ColumnClass) a rest c
    st1 (by simp) hget
  have hskip := narrowArgs_skip_other st ([] : List ColumnClass) pre
    (PyObj.bop a :: rest) hpre
  rw [hhead] at hskip
  have hskip2 : narrowArgs st ([] : List ColumnClass)
      (pre ++ PyObj.bop a :: rest)
      = Except.ok ({st1 with nextInstId := st1.nextInstId + 1},
          pre ++ PyObj.bop (narrowedInstance st1.nextInstId c a.df [])
            :: rest) := hskip
  refine ⟨{st1 with nextInstId := st1.nextInstId + 1}, c,
    narrowedInstance st1.nextInstId c a.df [], ?_, rfl, hcp, ?_, ?_⟩
  · exact processHints_single_bop st BClass.base _ _ _ hskip2
  · exact (selectColumns_nil a.df).1
  · exact (selectColumns_nil a.df).2

/-- Witness for C9: a base-annotated parameter strips the id-shaped
argument after a non-BoP argument down to the empty shape. -/
theorem base_hint_always_narrows_witness :
    RegWF st0 ∧
    (∀ o ∈ [PyObj.other 7], isBopObj o = false) ∧
    (∃ st2 c a2,
      castBoPtype (paramOnly (PyCls.bop BClass.base)) st0
          ([PyObj.other 7] ++ PyObj.bop aID :: [])
        = Except.ok (st2, [PyObj.other 7] ++ PyObj.bop a2 :: [])
      ∧ a2.cls = BClass.shaped c
      ∧ c.typeParams = []
      ∧ a2.df.schema = []
      ∧ (∀ row ∈ a2.df.rows, row = [])) :=
  ⟨regWF_st0, by decide,
    base_hint_always_narrows st0 [PyObj.other 7] aID [] regWF_st0
      (by decide)⟩

/-- C10: the decorator iterates over all type hints including the return
annotation; with no BoP-family parameter hints and a Shaped-Type return
annotation, a BoP argument whose column-set contains the return
annotation's set is narrowed to that set exactly as for a parameter
hint. -/
theorem return_hint_triggers_narrowing (st : GState) (f : FuncSig)
    (rc : ShapedType) (a : BoPInst) (hWF : RegWF st)
    (hforeign : ∀ h ∈ f.paramHints, ∃ t, h = PyCls.foreign t)
    (hret : f.returnHint = some (PyCls.bop (BClass.shaped rc)))
    (hvalid : ∀ t ∈ rc.typeParams, colOK t = true)
    (hsub : rc.typeParams.toFinset ⊆ (BClass.typeParams a.cls).toFinset) :
    ∃ st2 a2,
      castBoPtype f st [PyObj.bop a] = Except.ok (st2, [PyObj.bop a2])
      ∧ get_typ_params_or_empty_set a2.cls = rc.typeParams.toFinset
      ∧ a2.df = a.df.selectColumns (rc.typeParams.dedup.map colName) := by
  have hvdedup : validateColumns rc.typeParams.dedup = none := by
    rw [validateColumns_eq_none_iff]
    intro t ht
    exact hvalid t (List.mem_dedup.mp ht)
  obtain ⟨c, st1, hget⟩ := getitem_total st bopBaseId rc.typeParams.dedup
    hvdedup
  have hspec := getitem_ok_spec st bopBaseId rc.typeParams.dedup c st1 hWF
    hget
  have hhead := narrowArgs_single_match st rc.typeParams a [] c st1 hsub
    hget
  refine ⟨{st1 with nextInstId := st1.nextInstId + 1},
    narrowedInstance st1.nextInstId c a.df rc.typeParams, ?_, ?_, rfl⟩
  · unfold castBoPtype get_type_hints
    rw [hret]
    rw [processHints_skip_foreign f.paramHints hforeign st _ _]
    exact processHints_single_bop st (BClass.shaped rc) _ _ _ hhead
  · show (BClass.shaped c).typeParams.toFinset = rc.typeParams.toFinset
    simp only [BClass.typeParams]
    rw [hspec.2.1, toFinset_dedup_eq]

/-- A signature with one non-BoP parameter hint and a shaped return
annotation. -/
def sigRet : FuncSig :=
  { paramHints := [PyCls.foreign 42],
    returnHint := some (PyCls.bop (BClass.shaped rcNarrow)) }

/-- Witness for C10: the codeJava return annotation alone narrows the wide
argument. -/
theorem return_hint_triggers_narrowing_witness :
    RegWF st0 ∧
    (∀ h ∈ sigRet.paramHints, ∃ t, h = PyCls.foreign t) ∧
    sigRet.returnHint = some (PyCls.bop (BClass.shaped rcNarrow)) ∧
    (∀ t ∈ rcNarrow.typeParams, colOK t = true) ∧
    rcNarrow.typeParams.toFinset ⊆ (BClass.typeParams aWide.cls).toFinset ∧
    (∃ st2 a2,
      castBoPtype sigRet st0 [PyObj.bop aWide]
        = Except.ok (st2, [PyObj.bop a2])
      ∧ get_typ_params_or_empty_set a2.cls = rcNarrow.typeParams.toFinset
      ∧ a2.df = aWide.df.selectColumns
          (rcNarrow.typeParams.dedup.map colName)) :=
  ⟨regWF_st0,
    by intro h2 hh; simp [sigRet] at hh; exact ⟨42, hh⟩,
    rfl, by decide, by decide,
    return_hint_triggers_narrowing st0 sigRet rcNarrow aWide regWF_st0
      (by intro h2 hh; simp [sigRet] at hh; exact ⟨42, hh⟩)
      rfl (by decide) (by decide)⟩
